import Mathlib

set_option maxRecDepth 100000

/- Verification of the FastWorkflow agent adapter
   (src/tau2/agent/fastworkflow_adapter.py) against its specification.

   The adapter bridges the asynchronous, queue-driven FastWorkflow runner to the
   synchronous tau2-bench evaluator.  Everything below is a shallow embedding of
   that Python file: each Lean definition is a direct transcription of the
   corresponding Python method; the external runner (queue contents, session
   initialization outcome, exceptions raised by external calls) is modelled by
   an explicit `World` record that supplies the behaviour of every external
   interaction point appearing in the source. -/

namespace Tau2FW

/- Direction of a command trace event.  The Python enum is
   fastworkflow.CommandTraceEventDirection; the specification names the two
   values RUNNER_TO_EVALUATOR (surfaced) and EVALUATOR_TO_RUNNER (the
   AGENT_TO_WORKFLOW internal echo that _drain_command_trace skips). -/
inductive Direction where
  | RUNNER_TO_EVALUATOR : Direction
  | EVALUATOR_TO_RUNNER : Direction
deriving DecidableEq, Repr

/- An event drained from chat_session.command_trace_queue.  `command_name` is
   an Option because the Python code reads it with getattr(evt, "command_name",
   None) and then checks isinstance(cmd_name, str); `parameters` is an Option
   because getattr(evt, "parameters", None) may be None (the pydantic branches
   of _to_plain_kwargs are not distinguishable from the plain-dict branch at
   this level of abstraction, so a parameter map is a list of key/value pairs). -/
structure CommandTraceEvent where
  direction : Direction
  command_name : Option String
  parameters : Option (List (String × String))
  response_text : Option String
  success : Bool
deriving DecidableEq, Repr

/- The tuple (command_name, parameters, response_text, success) accumulated by
   _drain_command_trace (line 203 of the source). -/
structure ExecutedCommand where
  name : String
  params : List (String × String)
  response_text : Option String
  success : Bool
deriving DecidableEq, Repr

/- An item drained from chat_session.command_output_queue.  The Python code
   distinguishes objects carrying a `command_responses` list (each response
   read via getattr(cr, "response", None), hence Option String), bare strings,
   and anything else (which yields no text). -/
inductive CommandOutput where
  | withResponses (rs : List (Option String)) : CommandOutput
  | raw (s : String) : CommandOutput
  | other : CommandOutput
deriving DecidableEq, Repr

/- _to_plain_kwargs: None becomes an empty mapping, a dict is passed through.
   (The pydantic/model_dump fallbacks in the source collapse to the same
   abstract mapping here.) -/
def to_plain_kwargs (params : Option (List (String × String))) : List (String × String) :=
  params.getD []

/- The per-event body of the _drain_command_trace while-loop (source lines
   188-203): skip events whose direction is the internal echo
   (AGENT_TO_WORKFLOW, called EVALUATOR_TO_RUNNER in the spec), then keep the
   event only when command_name is a string of positive length. -/
def exec_of_event (evt : CommandTraceEvent) : Option ExecutedCommand :=
  if evt.direction = Direction.EVALUATOR_TO_RUNNER then none
  else
    match evt.command_name with
    | some nm =>
        if 0 < nm.length then
          some { name := nm, params := to_plain_kwargs evt.parameters,
                 response_text := evt.response_text, success := evt.success }
        else none
    | none => none

/- _drain_command_trace: pop at most `maxDrain` events off the queue (the
   `processed` counter in the source counts every popped event, kept or not)
   and collect the kept ones in FIFO order.  Returns the collected commands and
   the remaining queue contents. -/
def drain_command_trace : Nat → List CommandTraceEvent →
    List ExecutedCommand × List CommandTraceEvent
  | 0, q => ([], q)
  | _, [] => ([], [])
  | Nat.succ fuel, evt :: rest =>
      let r := drain_command_trace fuel rest
      match exec_of_event evt with
      | some c => (c :: r.1, r.2)
      | none => r

/- The "\n".join of the source, written recursively so that facts about it can
   be proved by structural induction. -/
def join_lines : List String → String
  | [] => ""
  | [s] => s
  | s :: rest => s ++ "\n" ++ join_lines rest

/- Python str.strip(): drop whitespace from both ends.  Transcribed
   structurally (rather than through String.trim) so that it evaluates inside
   kernel reductions. -/
def pstrip (s : String) : String :=
  String.mk (((s.data.dropWhile Char.isWhitespace).reverse.dropWhile
    Char.isWhitespace).reverse)

/- The text-extraction body of the _drain_agent_outputs loop (source lines
   231-239): from an object with a command_responses list take every response
   that is a string with non-blank strip (keeping the stripped text); a bare
   non-blank string yields its strip; anything else yields nothing. -/
def extract_texts : CommandOutput → List String
  | CommandOutput.withResponses rs =>
      rs.filterMap (fun r =>
        match r with
        | some txt => if pstrip txt = "" then none else some (pstrip txt)
        | none => none)
  | CommandOutput.raw s => if pstrip s = "" then none |>.toList else [pstrip s]
  | CommandOutput.other => []

/- One drained output object contributes one accumulated string: the
   line-separator join of its extracted texts, provided there is at least one
   (source lines 241-242). -/
def out_text_of (o : CommandOutput) : Option String :=
  let ts := extract_texts o
  if ts.isEmpty then none else some (join_lines ts)

/- _drain_agent_outputs: pop at most `maxDrain` objects off the output queue
   and collect one joined string per object that produced any text. -/
def drain_agent_outputs : Nat → List CommandOutput → List String × List CommandOutput
  | 0, q => ([], q)
  | _, [] => ([], [])
  | Nat.succ fuel, o :: rest =>
      let r := drain_agent_outputs fuel rest
      match out_text_of o with
      | some s => (s :: r.1, r.2)
      | none => r

/- Constants of the interaction loop in generate_next_message (source lines
   327-328): max_num_steps = 5000 and idle_limit = 150.  The per-iteration
   drain cap max_drain = 200 is passed literally at the call sites, as in the
   source. -/
def MAX_NUM_STEPS : Nat := 5000

def IDLE_LIMIT : Nat := 150

/- Log of one iteration of the interaction loop: whether the iteration drained
   anything (commands or texts) and the value of idle_cycles right after the
   iteration updated it. -/
structure IterLog where
  produced : Bool
  idle_after : Nat
deriving DecidableEq, Repr

/- Environment of the poll loop: whether the drains are live (they return
   nothing when the adapter is uninitialized or has no chat session, source
   lines 174-175 and 217-218) and an injected exception (iteration index and
   message) standing for any exception the runner interaction may raise during
   polling. -/
structure PollEnv where
  drains_on : Bool
  poll_fault : Option (Nat × String)
deriving DecidableEq, Repr

def fault_at (pf : Option (Nat × String)) (idx : Nat) : Option String :=
  match pf with
  | some p => if p.1 = idx then some p.2 else none
  | none => none

/- The data produced by one iteration of the loop: what the two drain calls
   returned (source lines 336-337) and the remaining queue contents. -/
structure IterData where
  commands : List ExecutedCommand
  texts : List String
  tq2 : List CommandTraceEvent
  oq2 : List CommandOutput
deriving DecidableEq, Repr

/- One iteration's drains: the runner, running concurrently, has appended the
   scripted arrivals to the two queues since the previous iteration; each drain
   is live only when the adapter is initialized with a chat session. -/
def poll_iter (env : PollEnv)
    (script : List (List CommandTraceEvent × List CommandOutput))
    (tq : List CommandTraceEvent) (oq : List CommandOutput) : IterData :=
  let arr := script.headD ([], [])
  let dc := if env.drains_on then drain_command_trace 200 (tq ++ arr.1)
            else ([], tq ++ arr.1)
  let dt := if env.drains_on then drain_agent_outputs 200 (oq ++ arr.2)
            else ([], oq ++ arr.2)
  { commands := dc.1, texts := dt.1, tq2 := dc.2, oq2 := dt.2 }

/- The interaction loop of generate_next_message (source lines 335-354).
   Arguments: remaining fuel (initially MAX_NUM_STEPS), current iteration
   index, the per-iteration arrival script, the current contents of the
   command-trace queue and of the output queue, the accumulators all_commands
   and all_texts, and idle_cycles.  Returns the accumulated commands and texts
   together with the per-iteration log, or the injected exception.  The
   time.sleep(0.15) between iterations has no observable effect in this model
   and is omitted; the write-only steps_taken counter of the source is likewise
   omitted. -/
def poll_loop (env : PollEnv) :
    Nat → Nat → List (List CommandTraceEvent × List CommandOutput) →
    List CommandTraceEvent → List CommandOutput →
    List ExecutedCommand → List String → Nat →
    Except String (List ExecutedCommand × List String × List IterLog)
  | 0, _, _, _, _, allC, allT, _ => Except.ok (allC, allT, [])
  | Nat.succ fuel, idx, script, tq, oq, allC, allT, idle =>
      match fault_at env.poll_fault idx with
      | some e => Except.error e
      | none =>
          let it := poll_iter env script tq oq
          let produced := !it.commands.isEmpty || !it.texts.isEmpty
          let idle2 := if produced then 0 else idle + 1
          let allC2 := if produced then allC ++ it.commands else allC
          let allT2 := if produced then allT ++ it.texts else allT
          if IDLE_LIMIT ≤ idle2 then
            Except.ok (allC2, allT2, [{ produced := produced, idle_after := idle2 }])
          else
            match poll_loop env fuel (idx + 1) script.tail it.tq2 it.oq2 allC2 allT2 idle2 with
            | Except.error e => Except.error e
            | Except.ok r =>
                Except.ok (r.1, r.2.1, { produced := produced, idle_after := idle2 } :: r.2.2)

/- Well-formedness of an iteration log given the idle_cycles value before its
   first entry: each entry resets idle_cycles to 0 when it produced something
   and increments it otherwise (source lines 340-346), and every entry other
   than the last has idle_cycles below IDLE_LIMIT (the loop breaks as soon as
   the limit is reached, source lines 351-352). -/
def chain_ok : Nat → List IterLog → Bool
  | _, [] => true
  | idle, e :: rest =>
      (e.idle_after == (if e.produced then 0 else idle + 1)) &&
      (rest.isEmpty || (decide (e.idle_after < IDLE_LIMIT) && chain_ok e.idle_after rest))

/- A tau2 ToolCall as built by _convert_commands_to_tool_calls (source lines
   258-264): positional id, command name, plain-dict arguments, fixed
   requestor "assistant". -/
structure ToolCall where
  id : String
  name : String
  arguments : List (String × String)
  requestor : String
deriving DecidableEq, Repr

/- A tau2 AssistantMessage as built by generate_next_message: role is always
   "assistant", cost is always 0 (the literal 0.0 of the source, a Nat here
   since no other float ever occurs). -/
structure AssistantMessage where
  role : String
  content : Option String
  tool_calls : Option (List ToolCall)
  cost : Nat
deriving DecidableEq, Repr

/- _convert_commands_to_tool_calls (source lines 252-266): the id of each call
   is "call_" followed by the length of the list built so far, i.e. the
   position of the record in the current batch. -/
def convert_commands_to_tool_calls (commands : List ExecutedCommand) : List ToolCall :=
  commands.foldl
    (fun acc c =>
      acc ++ [{ id := "call_" ++ toString acc.length, name := c.name,
                arguments := c.params, requestor := "assistant" }]) []

/- Closed form of the converter: the call built for position k of the batch. -/
def call_at (k : Nat) (c : ExecutedCommand) : ToolCall :=
  { id := "call_" ++ toString k, name := c.name,
    arguments := c.params, requestor := "assistant" }

def calls_from (k : Nat) : List ExecutedCommand → List ToolCall
  | [] => []
  | c :: rest => call_at k c :: calls_from (k + 1) rest

/- The FastWorkflow chat session handle created during initialization (source
   line 127, ChatSession(run_as_agent=True)). -/
structure ChatSession where
  run_as_agent : Bool
deriving DecidableEq, Repr

/- The mutable attributes of the adapter object relevant to its behaviour:
   self.fastworkflow (here: whether the module reference was assigned),
   self.chat_session and self.is_initialized (called is_init here). -/
structure Adapter where
  fw_loaded : Bool
  chat_session : Option ChatSession
  is_init : Bool
deriving DecidableEq, Repr

/- Outcome of the external initialization sequence in _initialize_fastworkflow,
   as dictated by the environment: success, or an exception at one of the three
   external call sites that can raise — fastworkflow.init (after
   self.fastworkflow was assigned), the ChatSession constructor, or
   start_workflow (after self.chat_session was assigned). -/
inductive InitOutcome where
  | success : InitOutcome
  | fail_before_session (err : String) : InitOutcome
  | fail_at_session (err : String) : InitOutcome
  | fail_at_start (err : String) : InitOutcome
deriving DecidableEq, Repr

/- The exception text carried by a failing initialization outcome, if any. -/
def init_err : InitOutcome → Option String
  | InitOutcome.success => none
  | InitOutcome.fail_before_session e => some e
  | InitOutcome.fail_at_session e => some e
  | InitOutcome.fail_at_start e => some e

/- Adapter attributes after a fully successful initialization sequence. -/
def started (a : Adapter) : Adapter :=
  { a with fw_loaded := true, chat_session := some { run_as_agent := true }, is_init := true }

/- The behaviour of everything external to the adapter during one
   generate_next_message call: the outcome of session initialization, whether
   the (suppressed) ChatSession.clear_workflow_stack call raises, injected
   exceptions for the dispatch, polling and conversion phases (standing for
   any exception those phases may raise), and the queue contents: initial
   contents plus per-iteration arrivals produced by the concurrently running
   runner. -/
structure World where
  init_outcome : InitOutcome
  clear_stack_raises : Bool
  dispatch_fault : Option String
  poll_fault : Option (Nat × String)
  conv_fault : Option String
  script : List (List CommandTraceEvent × List CommandOutput)
  trace_q0 : List CommandTraceEvent
  out_q0 : List CommandOutput
deriving DecidableEq, Repr

/- Externally observable side effects of one call: how many times the
   initialization sequence actually ran (past the is_initialized guard), the
   startup_command values passed to start_workflow, and the texts put on
   user_message_queue. -/
structure Effects where
  init_calls : Nat
  startup_commands : List String
  pushed : List String
deriving DecidableEq, Repr

def no_effects : Effects := { init_calls := 0, startup_commands := [], pushed := [] }

/- _initialize_fastworkflow (source lines 103-146).  Returns (raised exception
   if any, adapter attributes after the call, observable effects).  Python
   truthiness of `if initial_message:` — the startup command is passed to
   start_workflow only when the message is a non-None, non-empty string. -/
def init_fw (w : World) (a : Adapter) (initial_message : Option String) :
    Option String × Adapter × Effects :=
  if a.is_init then (none, a, no_effects)
  else
    match w.init_outcome with
    | InitOutcome.fail_before_session e =>
        (some e, { a with fw_loaded := true },
         { init_calls := 1, startup_commands := [], pushed := [] })
    | InitOutcome.fail_at_session e =>
        (some e, { a with fw_loaded := true },
         { init_calls := 1, startup_commands := [], pushed := [] })
    | InitOutcome.fail_at_start e =>
        let a1 : Adapter :=
          { a with fw_loaded := true, chat_session := some { run_as_agent := true } }
        match initial_message with
        | some m =>
            if m = "" then
              ((none : Option String), { a1 with is_init := true },
               { init_calls := 1, startup_commands := [], pushed := [] })
            else
              (some e, a1, { init_calls := 1, startup_commands := [m], pushed := [] })
        | none =>
            (none, { a1 with is_init := true },
             { init_calls := 1, startup_commands := [], pushed := [] })
    | InitOutcome.success =>
        let a1 : Adapter :=
          { a with fw_loaded := true, chat_session := some { run_as_agent := true } }
        match initial_message with
        | some m =>
            if m = "" then
              ((none : Option String), { a1 with is_init := true },
               { init_calls := 1, startup_commands := [], pushed := [] })
            else
              (none, { a1 with is_init := true },
               { init_calls := 1, startup_commands := [m], pushed := [] })
        | none =>
            (none, { a1 with is_init := true },
             { init_calls := 1, startup_commands := [], pushed := [] })

/- The tau2 message history entries the adapter appends to
   state["message_history"]: the inbound UserMessage/ToolMessage objects and
   the outbound AssistantMessage. -/
inductive HistMsg where
  | userM (content : String) : HistMsg
  | toolM (content : String) : HistMsg
  | assistantM (m : AssistantMessage) : HistMsg
deriving DecidableEq, Repr

def is_assistant : HistMsg → Bool
  | HistMsg.assistantM _ => true
  | _ => false

/- The adapter state dict: message_history, awaiting_response,
   last_tool_calls (source lines 291-296 and get_init_state). -/
structure BState where
  message_history : List HistMsg
  awaiting_response : Bool
  last_tool_calls : List ToolCall
deriving DecidableEq, Repr

/- ValidAgentInputMessage: UserMessage, ToolMessage, or MultiToolMessage (a
   bundle of ToolMessages). -/
inductive InMsg where
  | user (content : String) : InMsg
  | tool (content : String) : InMsg
  | multiTool (contents : List String) : InMsg
deriving DecidableEq, Repr

/- The `if state is None` block at the top of generate_next_message (source
   lines 291-296). -/
def state_setup (state : Option BState) : BState :=
  state.getD { message_history := [], awaiting_response := false, last_tool_calls := [] }

/- The history entries that the dispatch block appends for one inbound
   message (source lines 306, 311, 316, 323). -/
def inbound_msgs : InMsg → List HistMsg
  | InMsg.user c => [HistMsg.userM c]
  | InMsg.tool c => [HistMsg.toolM c]
  | InMsg.multiTool cs => cs.map HistMsg.toolM

/- get_init_state (source lines 444-461). -/
def get_init_state (message_history : Option (List HistMsg)) : BState :=
  { message_history := message_history.getD [], awaiting_response := false,
    last_tool_calls := [] }

/- The message classification and forwarding block of generate_next_message
   (source lines 298-324), including the injected dispatch-phase exception.
   An error value carries the exception text together with the state dict,
   adapter attributes and effects at the moment the exception was raised
   (Python locals and object attributes keep their mutations when an exception
   propagates to the enclosing handler). -/
def dispatch (w : World) (a : Adapter) (m : InMsg) (st : BState) :
    Except (String × BState × Adapter × Effects) (BState × Adapter × Effects) :=
  let step1 : Except (String × BState × Adapter × Effects) (BState × Adapter × Effects) :=
    match m with
    | InMsg.user c =>
        if a.is_init then
          let eff : Effects :=
            if a.chat_session.isSome then
              { init_calls := 0, startup_commands := [], pushed := [c] }
            else no_effects
          Except.ok
            ({ st with message_history := st.message_history ++ [HistMsg.userM c] }, a, eff)
        else
          match init_fw w a (some c) with
          | (some e, a1, eff) => Except.error (e, st, a1, eff)
          | (none, a1, eff) =>
              Except.ok
                ({ st with message_history := st.message_history ++ [HistMsg.userM c] },
                 a1, eff)
    | InMsg.tool c =>
        Except.ok
          ({ st with message_history := st.message_history ++ [HistMsg.toolM c] }, a,
           no_effects)
    | InMsg.multiTool cs =>
        Except.ok
          ({ st with message_history := st.message_history ++ cs.map HistMsg.toolM }, a,
           no_effects)
  match step1 with
  | Except.error r => Except.error r
  | Except.ok r =>
      match w.dispatch_fault with
      | some e => Except.error (e, r)
      | none => Except.ok r

/- The queue-draining phase of generate_next_message (source lines 326-354). -/
def poll_phase (w : World) (a : Adapter) :
    Except String (List ExecutedCommand × List String × List IterLog) :=
  poll_loop { drains_on := a.is_init && a.chat_session.isSome, poll_fault := w.poll_fault }
    MAX_NUM_STEPS 0 w.script w.trace_q0 w.out_q0 [] [] 0

def APOLOGY : String :=
  "I apologize, but I am unable to assist with this request at this time."

/- Python truthiness of the two response variables in the if/elif/else of
   source lines 373-394. -/
def truthy_calls : Option (List ToolCall) → Bool
  | none => false
  | some l => !l.isEmpty

def truthy_str : Option String → Bool
  | none => false
  | some s => s != ""

/- The outbound-conversion tail of generate_next_message (source lines
   356-397): pick the last text if any, convert the commands if any (also
   updating state["last_tool_calls"]), then build the AssistantMessage with
   either tool_calls, or content, or the fixed apology, and append it to the
   history. -/
def assemble_outbound (all_commands : List ExecutedCommand) (all_texts : List String)
    (st : BState) : AssistantMessage × BState :=
  let response_content : Option String := all_texts.getLast?
  let response_tool_calls : Option (List ToolCall) :=
    if all_commands.isEmpty then none
    else some (convert_commands_to_tool_calls all_commands)
  let st1 : BState :=
    match response_tool_calls with
    | some tcs => { st with last_tool_calls := tcs }
    | none => st
  let msg : AssistantMessage :=
    if truthy_calls response_tool_calls then
      { role := "assistant", content := none, tool_calls := response_tool_calls, cost := 0 }
    else if truthy_str response_content then
      { role := "assistant", content := response_content, tool_calls := none, cost := 0 }
    else
      { role := "assistant", content := some APOLOGY, tool_calls := none, cost := 0 }
  (msg, { st1 with message_history := st1.message_history ++ [HistMsg.assistantM msg] })

/- The try-block of generate_next_message (source lines 289-397): state setup,
   dispatch, poll, conversion.  An error value is an exception reaching the
   top-level handler, carrying the locals at that moment. -/
def gnm_body (w : World) (a : Adapter) (m : InMsg) (state : Option BState) :
    Except (String × BState × Adapter × Effects)
      (AssistantMessage × BState × Adapter × Effects) :=
  let st0 := state_setup state
  match dispatch w a m st0 with
  | Except.error r => Except.error r
  | Except.ok (st1, a1, eff) =>
      match poll_phase w a1 with
      | Except.error e => Except.error (e, st1, a1, eff)
      | Except.ok (all_commands, all_texts, _) =>
          match w.conv_fault with
          | some e => Except.error (e, st1, a1, eff)
          | none =>
              let r := assemble_outbound all_commands all_texts st1
              Except.ok (r.1, r.2, a1, eff)

/- The error AssistantMessage built by the except-handler (source lines
   403-408). -/
def error_message (e : String) : AssistantMessage :=
  { role := "assistant", content := some ("I encountered an error: " ++ e),
    tool_calls := none, cost := 0 }

/- generate_next_message (source lines 268-409): the try-block wrapped in the
   top-level except-handler, which converts any exception into an error
   AssistantMessage and returns the state as it stood at the moment of
   failure.  The result also carries the adapter attributes after the call and
   the observable external effects. -/
def generate_next_message (w : World) (a : Adapter) (m : InMsg) (state : Option BState) :
    AssistantMessage × Option BState × Adapter × Effects :=
  match gnm_body w a m state with
  | Except.ok (msg, st, a1, eff) => (msg, some st, a1, eff)
  | Except.error (e, st, a1, eff) => (error_message e, some st, a1, eff)

/- reset (source lines 411-427): inside `with contextlib.suppress(Exception)`
   the code first calls ChatSession.clear_workflow_stack (when
   self.fastworkflow is set) and then assigns self.chat_session = None; when
   the clear call raises, the suppressed exception skips that assignment, so
   the handle reference survives.  self.is_initialized is set False outside
   the suppress block in every case.  The function is total: no exception
   escapes. -/
def reset (w : World) (a : Adapter) : Adapter :=
  if a.is_init ∧ a.chat_session.isSome then
    let a1 := if a.fw_loaded ∧ w.clear_stack_raises then a
              else { a with chat_session := none }
    { a1 with is_init := false }
  else { a with is_init := false }

/- stop (source lines 429-442): ignores its optional message and state
   arguments and delegates to reset. -/
def stop (w : World) (a : Adapter) (_m : Option InMsg) (_s : Option BState) : Adapter :=
  reset w a

/- Concrete worlds, adapters and runs used to instantiate the theorems below
   at explicit inputs. -/
def w0 : World :=
  { init_outcome := InitOutcome.success, clear_stack_raises := false,
    dispatch_fault := none, poll_fault := none, conv_fault := none,
    script := [], trace_q0 := [], out_q0 := [] }

def adapter_live : Adapter :=
  { fw_loaded := true, chat_session := some { run_as_agent := true }, is_init := true }

def adapter_fresh : Adapter :=
  { fw_loaded := false, chat_session := none, is_init := false }

/- The iteration log of a run in which the runner never produces anything: the
   loop idles IDLE_LIMIT times and exits. -/
def quiet_trace : List IterLog :=
  (List.range IDLE_LIMIT).map (fun i => { produced := false, idle_after := i + 1 })

/- The iteration log of a run whose first iteration drains something and whose
   remaining iterations idle up to the limit. -/
def busy_trace : List IterLog := { produced := true, idle_after := 0 } :: quiet_trace

def cancel_event : CommandTraceEvent :=
  { direction := Direction.RUNNER_TO_EVALUATOR, command_name := some "cancel_pending_order",
    parameters := some [("order_id", "#W123")], response_text := some "ok", success := true }

def cancel_cmd : ExecutedCommand :=
  { name := "cancel_pending_order", params := [("order_id", "#W123")],
    response_text := some "ok", success := true }

def w_one_cmd : World := { w0 with script := [([cancel_event], [])] }

def w_two_texts : World :=
  { w0 with script :=
      [([], [CommandOutput.withResponses [some "A"],
             CommandOutput.withResponses [some "B"]])] }

def w_init_fail : World :=
  { w0 with init_outcome := InitOutcome.fail_before_session "missing session assets" }

def w_dispatch_fault : World := { w0 with dispatch_fault := some "boom" }

def w_clear_raises : World := { w0 with clear_stack_raises := true }

lemma drain_command_trace_eq (n : Nat) (q : List CommandTraceEvent) :
    drain_command_trace n q = ((q.take n).filterMap exec_of_event, q.drop n) := by
  induction n generalizing q with
  | zero => simp [drain_command_trace]
  | succ m ih =>
      cases q with
      | nil => simp [drain_command_trace]
      | cons evt rest =>
          simp only [drain_command_trace, ih rest, List.take_succ_cons,
            List.filterMap_cons, List.drop_succ_cons]
          cases h : exec_of_event evt <;> simp [h]

lemma drain_agent_outputs_eq (n : Nat) (q : List CommandOutput) :
    drain_agent_outputs n q = ((q.take n).filterMap out_text_of, q.drop n) := by
  induction n generalizing q with
  | zero => simp [drain_agent_outputs]
  | succ m ih =>
      cases q with
      | nil => simp [drain_agent_outputs]
      | cons o rest =>
          simp only [drain_agent_outputs, ih rest, List.take_succ_cons,
            List.filterMap_cons, List.drop_succ_cons]
          cases h : out_text_of o <;> simp [h]

lemma extract_texts_ne_empty (o : CommandOutput) :
    ∀ s ∈ extract_texts o, s ≠ "" := by
  intro s hs
  cases o with
  | withResponses rs =>
      simp only [extract_texts, List.mem_filterMap] at hs
      obtain ⟨r, _, hr⟩ := hs
      cases r with
      | none => simp at hr
      | some txt =>
          by_cases ht : pstrip txt = "" <;> simp [ht] at hr
          rw [← hr]
          exact ht
  | raw t =>
      simp only [extract_texts] at hs
      by_cases ht : pstrip t = "" <;> simp [ht] at hs
      rw [hs]
      exact ht
  | other => simp [extract_texts] at hs

lemma string_ne_empty_of_length_pos (s : String) (h : 0 < s.length) : s ≠ "" := by
  intro he
  rw [he] at h
  exact absurd h (by decide)

lemma join_lines_ne_empty (l : List String) (hne : l ≠ [])
    (hall : ∀ s ∈ l, s ≠ "") : join_lines l ≠ "" := by
  cases l with
  | nil => exact absurd rfl hne
  | cons s rest =>
      cases rest with
      | nil => exact hall s (by simp)
      | cons t more =>
          apply string_ne_empty_of_length_pos
          have h2 : ("\n" : String).length = 1 := rfl
          have hlen : (join_lines (s :: t :: more)).length =
              s.length + 1 + (join_lines (t :: more)).length := by
            simp [join_lines, String.length_append, h2]
          rw [hlen]
          omega

lemma out_text_of_ne_empty (o : CommandOutput) (s : String)
    (h : out_text_of o = some s) : s ≠ "" := by
  unfold out_text_of at h
  by_cases he : (extract_texts o).isEmpty <;> simp [he] at h
  rw [← h]
  exact join_lines_ne_empty _ (by simpa [List.isEmpty_iff] using he)
    (extract_texts_ne_empty o)

lemma poll_loop_ok_spec (env : PollEnv) :
    ∀ fuel idx script tq oq allC allT idle cmds txts tr,
    idle < IDLE_LIMIT →
    poll_loop env fuel idx script tq oq allC allT idle = Except.ok (cmds, txts, tr) →
    tr.length ≤ fuel ∧ (0 < fuel → tr ≠ []) ∧ chain_ok idle tr = true ∧
      (tr.length < fuel → ∃ e, tr.getLast? = some e ∧ e.idle_after = IDLE_LIMIT) := by
  intro fuel
  induction fuel with
  | zero =>
      intro idx script tq oq allC allT idle cmds txts tr _ h
      simp only [poll_loop, Except.ok.injEq, Prod.mk.injEq] at h
      obtain ⟨-, -, h3⟩ := h
      subst h3
      exact ⟨by simp, by simp, by simp [chain_ok], by simp⟩
  | succ n ih =>
      intro idx script tq oq allC allT idle cmds txts tr hidle h
      simp only [poll_loop] at h
      cases hf : fault_at env.poll_fault idx with
      | some e => rw [hf] at h; simp at h
      | none =>
          rw [hf] at h
          simp only [] at h
          generalize hP : (!(poll_iter env script tq oq).commands.isEmpty ||
              !(poll_iter env script tq oq).texts.isEmpty) = produced at h
          cases produced with
          | true =>
              have hnl : ¬ IDLE_LIMIT ≤ (if true then 0 else idle + 1) := by
                simp [IDLE_LIMIT]
              rw [if_neg hnl] at h
              cases hrec : poll_loop env n (idx + 1) script.tail
                  (poll_iter env script tq oq).tq2 (poll_iter env script tq oq).oq2
                  (if true then allC ++ (poll_iter env script tq oq).commands else allC)
                  (if true then allT ++ (poll_iter env script tq oq).texts else allT)
                  (if true then 0 else idle + 1) with
              | error e => rw [hrec] at h; simp at h
              | ok r =>
                  rw [hrec] at h
                  simp only [Except.ok.injEq, Prod.mk.injEq] at h
                  obtain ⟨-, -, h3⟩ := h
                  subst h3
                  have hlt : (if true then 0 else idle + 1) < IDLE_LIMIT := by
                    simp [IDLE_LIMIT]
                  obtain ⟨l1, l2, l3, l4⟩ := ih _ _ _ _ _ _ _ r.1 r.2.1 r.2.2 hlt hrec
                  refine ⟨by simpa using Nat.succ_le_succ l1, fun _ => by simp, ?_, ?_⟩
                  · simp only [chain_ok, if_true, beq_self_eq_true, Bool.true_and]
                    cases hr2 : r.2.2 with
                    | nil => simp
                    | cons c cs =>
                        rw [hr2] at l3
                        have l3h : chain_ok 0 (c :: cs) = true := by simpa using l3
                        simp [l3h, IDLE_LIMIT]
                  · intro hlen
                    simp only [List.length_cons] at hlen
                    have hlen' : r.2.2.length < n := by omega
                    obtain ⟨e, he, hee⟩ := l4 hlen'
                    cases hr2 : r.2.2 with
                    | nil => rw [hr2] at he; simp at he
                    | cons c cs =>
                        refine ⟨e, ?_, hee⟩
                        rw [hr2] at he
                        rw [List.getLast?_cons_cons, he]
          | false =>
              by_cases hlim : IDLE_LIMIT ≤ (if false then 0 else idle + 1)
              · rw [if_pos hlim] at h
                simp only [Except.ok.injEq, Prod.mk.injEq] at h
                obtain ⟨-, -, h3⟩ := h
                subst h3
                have h150 : idle + 1 = IDLE_LIMIT := by
                  simp only [IDLE_LIMIT] at hidle ⊢
                  simp [IDLE_LIMIT] at hlim
                  omega
                refine ⟨by simp, fun _ => by simp, ?_, ?_⟩
                · simp [chain_ok]
                · intro _
                  exact ⟨_, rfl, by simpa using h150⟩
              · rw [if_neg hlim] at h
                cases hrec : poll_loop env n (idx + 1) script.tail
                    (poll_iter env script tq oq).tq2 (poll_iter env script tq oq).oq2
                    (if false then allC ++ (poll_iter env script tq oq).commands else allC)
                    (if false then allT ++ (poll_iter env script tq oq).texts else allT)
                    (if false then 0 else idle + 1) with
                | error e => rw [hrec] at h; simp at h
                | ok r =>
                    rw [hrec] at h
                    simp only [Except.ok.injEq, Prod.mk.injEq] at h
                    obtain ⟨-, -, h3⟩ := h
                    subst h3
                    have hlt : (if false then 0 else idle + 1) < IDLE_LIMIT := by
                      simpa using Nat.lt_of_not_le (by simpa using hlim)
                    obtain ⟨l1, l2, l3, l4⟩ := ih _ _ _ _ _ _ _ r.1 r.2.1 r.2.2 hlt hrec
                    have hlt' : idle + 1 < IDLE_LIMIT := by simpa using hlt
                    refine ⟨by simpa using Nat.succ_le_succ l1, fun _ => by simp, ?_, ?_⟩
                    · simp only [chain_ok, if_false, beq_self_eq_true, Bool.true_and]
                      cases hr2 : r.2.2 with
                      | nil => simp
                      | cons c cs =>
                          rw [hr2] at l3
                          have l3h : chain_ok (idle + 1) (c :: cs) = true := by simpa using l3
                          simp [l3h, hlt']
                    · intro hlen
                      simp only [List.length_cons] at hlen
                      have hlen' : r.2.2.length < n := by omega
                      obtain ⟨e, he, hee⟩ := l4 hlen'
                      cases hr2 : r.2.2 with
                      | nil => rw [hr2] at he; simp at he
                      | cons c cs =>
                          refine ⟨e, ?_, hee⟩
                          rw [hr2] at he
                          rw [List.getLast?_cons_cons, he]

lemma poll_iter_texts_ne (env : PollEnv)
    (script : List (List CommandTraceEvent × List CommandOutput))
    (tq : List CommandTraceEvent) (oq : List CommandOutput) :
    ∀ s ∈ (poll_iter env script tq oq).texts, s ≠ "" := by
  intro s hs
  unfold poll_iter at hs
  by_cases hd : env.drains_on
  · simp only [hd, if_true, drain_agent_outputs_eq, List.mem_filterMap] at hs
    obtain ⟨o, -, ho⟩ := hs
    exact out_text_of_ne_empty o s ho
  · simp [hd] at hs

lemma poll_loop_texts_ne (env : PollEnv) :
    ∀ fuel idx script tq oq allC allT idle cmds txts tr,
    poll_loop env fuel idx script tq oq allC allT idle = Except.ok (cmds, txts, tr) →
    (∀ s ∈ allT, s ≠ "") → ∀ s ∈ txts, s ≠ "" := by
  intro fuel
  induction fuel with
  | zero =>
      intro idx script tq oq allC allT idle cmds txts tr h hall
      simp only [poll_loop, Except.ok.injEq, Prod.mk.injEq] at h
      obtain ⟨-, h2, -⟩ := h
      subst h2
      exact hall
  | succ n ih =>
      intro idx script tq oq allC allT idle cmds txts tr h hall
      simp only [poll_loop] at h
      cases hf : fault_at env.poll_fault idx with
      | some e => rw [hf] at h; simp at h
      | none =>
          rw [hf] at h
          simp only [] at h
          generalize hP : (!(poll_iter env script tq oq).commands.isEmpty ||
              !(poll_iter env script tq oq).texts.isEmpty) = produced at h
          have hall2 : ∀ s ∈ (if produced = true
              then allT ++ (poll_iter env script tq oq).texts else allT), s ≠ "" := by
            intro s hs
            cases produced with
            | true =>
                simp only [if_true, List.mem_append] at hs
                cases hs with
                | inl hl => exact hall s hl
                | inr hr => exact poll_iter_texts_ne env script tq oq s hr
            | false =>
                simp only [Bool.false_eq_true, if_false] at hs
                exact hall s hs
          by_cases hlim : IDLE_LIMIT ≤ (if produced = true then 0 else idle + 1)
          · rw [if_pos hlim] at h
            simp only [Except.ok.injEq, Prod.mk.injEq] at h
            obtain ⟨-, h2, -⟩ := h
            subst h2
            exact hall2
          · rw [if_neg hlim] at h
            cases hrec : poll_loop env n (idx + 1) script.tail
                (poll_iter env script tq oq).tq2 (poll_iter env script tq oq).oq2
                (if produced = true then allC ++ (poll_iter env script tq oq).commands else allC)
                (if produced = true then allT ++ (poll_iter env script tq oq).texts else allT)
                (if produced = true then 0 else idle + 1) with
            | error e => rw [hrec] at h; simp at h
            | ok r =>
                rw [hrec] at h
                simp only [Except.ok.injEq, Prod.mk.injEq] at h
                obtain ⟨-, h2, -⟩ := h
                subst h2
                exact ih _ _ _ _ _ _ _ r.1 r.2.1 r.2.2 hrec hall2

lemma convert_foldl_eq (l : List ExecutedCommand) :
    ∀ acc : List ToolCall,
    l.foldl (fun acc c =>
      acc ++ [{ id := "call_" ++ toString acc.length, name := c.name,
                arguments := c.params, requestor := "assistant" }]) acc
      = acc ++ calls_from acc.length l := by
  induction l with
  | nil => intro acc; simp [calls_from]
  | cons c rest ih =>
      intro acc
      simp only [List.foldl_cons, ih, calls_from, call_at]
      simp

lemma convert_eq_calls_from (l : List ExecutedCommand) :
    convert_commands_to_tool_calls l = calls_from 0 l := by
  simpa using convert_foldl_eq l []

lemma calls_from_length (k : Nat) (l : List ExecutedCommand) :
    (calls_from k l).length = l.length := by
  induction l generalizing k with
  | nil => simp [calls_from]
  | cons c rest ih => simp [calls_from, ih]

lemma calls_from_get (l : List ExecutedCommand) :
    ∀ (k i : Nat) (hi : i < l.length),
    (calls_from k l).get ⟨i, by rw [calls_from_length]; exact hi⟩ =
      call_at (k + i) (l.get ⟨i, hi⟩) := by
  induction l with
  | nil => intro k i hi; simp at hi
  | cons c rest ih =>
      intro k i hi
      cases i with
      | zero => simp [calls_from]
      | succ j =>
          have hj : j < rest.length := by simpa using hi
          have := ih (k + 1) j hj
          simp only [calls_from, List.get_cons_succ, this]
          congr 1
          omega

lemma calls_from_map_name (k : Nat) (l : List ExecutedCommand) :
    (calls_from k l).map ToolCall.name = l.map ExecutedCommand.name := by
  induction l generalizing k with
  | nil => simp [calls_from]
  | cons c rest ih => simp [calls_from, call_at, ih]

lemma convert_length (l : List ExecutedCommand) :
    (convert_commands_to_tool_calls l).length = l.length := by
  rw [convert_eq_calls_from, calls_from_length]

lemma convert_ne_nil (l : List ExecutedCommand) (h : l ≠ []) :
    convert_commands_to_tool_calls l ≠ [] := by
  intro hc
  apply h
  have := convert_length l
  rw [hc] at this
  exact List.length_eq_zero.mp this.symm

lemma assemble_outbound_cmds (all_commands : List ExecutedCommand)
    (all_texts : List String) (st : BState) (h : all_commands ≠ []) :
    (assemble_outbound all_commands all_texts st).1 =
      { role := "assistant", content := none,
        tool_calls := some (convert_commands_to_tool_calls all_commands), cost := 0 } := by
  have he : all_commands.isEmpty = false := by
    simpa [List.isEmpty_iff] using h
  have ht : truthy_calls (some (convert_commands_to_tool_calls all_commands)) = true := by
    simp [truthy_calls, List.isEmpty_iff, convert_ne_nil all_commands h]
  simp [assemble_outbound, he, ht]

lemma assemble_outbound_texts (all_texts : List String) (st : BState)
    (ht : all_texts ≠ []) (hne : ∀ s ∈ all_texts, s ≠ "") :
    ∃ t, all_texts.getLast? = some t ∧
      (assemble_outbound [] all_texts st).1 =
        { role := "assistant", content := some t, tool_calls := none, cost := 0 } := by
  obtain ⟨t, hlast⟩ : ∃ t, all_texts.getLast? = some t := by
    cases hl : all_texts.getLast? with
    | none => exact absurd (List.getLast?_eq_none_iff.mp hl) ht
    | some t => exact ⟨t, rfl⟩
  have htm : t ∈ all_texts := by
    obtain ⟨hne2, heq⟩ :=
      @List.mem_getLast?_eq_getLast String all_texts t (by simp [hlast, Option.mem_def])
    rw [heq]
    exact List.getLast_mem hne2
  have htne : t ≠ "" := hne t htm
  have hts : truthy_str (some t) = true := by
    simp [truthy_str, bne_iff_ne, htne]
  refine ⟨t, hlast, ?_⟩
  simp [assemble_outbound, truthy_calls, hlast, hts]

lemma assemble_outbound_empty (st : BState) :
    (assemble_outbound [] [] st).1 =
      { role := "assistant", content := some APOLOGY, tool_calls := none, cost := 0 } := by
  simp [assemble_outbound, truthy_calls, truthy_str]

lemma gnm_eq_of_ok (w : World) (a : Adapter) (m : InMsg) (s : Option BState)
    (st1 : BState) (a1 : Adapter) (eff : Effects) (cmds : List ExecutedCommand)
    (txts : List String) (tr : List IterLog)
    (hd : dispatch w a m (state_setup s) = Except.ok (st1, a1, eff))
    (hp : poll_phase w a1 = Except.ok (cmds, txts, tr))
    (hcf : w.conv_fault = none) :
    generate_next_message w a m s =
      ((assemble_outbound cmds txts st1).1,
       some (assemble_outbound cmds txts st1).2, a1, eff) := by
  simp [generate_next_message, gnm_body, hd, hp, hcf]

lemma gnm_eq_of_err (w : World) (a : Adapter) (m : InMsg) (s : Option BState)
    (e : String) (st : BState) (a1 : Adapter) (eff : Effects)
    (h : gnm_body w a m s = Except.error (e, st, a1, eff)) :
    generate_next_message w a m s = (error_message e, some st, a1, eff) := by
  simp [generate_next_message, h]

lemma gnm_adapter_effects_of_dispatch_ok (w : World) (a : Adapter) (m : InMsg)
    (s : Option BState) (st1 : BState) (a1 : Adapter) (eff : Effects)
    (hd : dispatch w a m (state_setup s) = Except.ok (st1, a1, eff)) :
    (generate_next_message w a m s).2.2.1 = a1 ∧
      (generate_next_message w a m s).2.2.2 = eff := by
  simp only [generate_next_message, gnm_body, hd]
  cases hp : poll_phase w a1 with
  | error e => simp
  | ok r =>
      obtain ⟨cmds, txts, tr⟩ := r
      cases hcf : w.conv_fault with
      | some e => simp
      | none => simp

lemma gnm_adapter_effects_of_dispatch_err (w : World) (a : Adapter) (m : InMsg)
    (s : Option BState) (e : String) (st : BState) (a1 : Adapter) (eff : Effects)
    (hd : dispatch w a m (state_setup s) = Except.error (e, st, a1, eff)) :
    (generate_next_message w a m s).2.2.1 = a1 ∧
      (generate_next_message w a m s).2.2.2 = eff := by
  simp [generate_next_message, gnm_body, hd]

lemma poll_phase_texts_ne (w : World) (a : Adapter) (cmds : List ExecutedCommand)
    (txts : List String) (tr : List IterLog)
    (hp : poll_phase w a = Except.ok (cmds, txts, tr)) :
    ∀ s ∈ txts, s ≠ "" := by
  exact poll_loop_texts_ne _ _ _ _ _ _ _ _ _ _ _ _ hp (by simp)

lemma poll_phase_w0_eval :
    poll_phase w0 adapter_live = Except.ok ([], [], quiet_trace) := by
  rfl

lemma poll_phase_one_cmd_eval :
    poll_phase w_one_cmd adapter_live = Except.ok ([cancel_cmd], [], busy_trace) := by
  rfl

lemma poll_phase_two_texts_eval :
    poll_phase w_two_texts adapter_live = Except.ok ([], ["A", "B"], busy_trace) := by
  rfl

/-- Claim C4: a drained record is accumulated and converted into an ActionCall
if and only if its direction is RUNNER_TO_EVALUATOR (not the reverse
internal-echo direction) and its action name is a non-empty string; in
particular an ExecutedActionRecord tagged EVALUATOR_TO_RUNNER is never
converted into an outbound ActionCall.  The first conjunct shows that
_drain_command_trace keeps exactly the events accepted by exec_of_event in
FIFO order; the second characterizes exec_of_event. -/
theorem claim_C4 (n : Nat) (q : List CommandTraceEvent) :
    (drain_command_trace n q).1 = (q.take n).filterMap exec_of_event ∧
    (∀ evt : CommandTraceEvent,
      ((exec_of_event evt).isSome ↔
        (evt.direction = Direction.RUNNER_TO_EVALUATOR ∧
          ∃ nm, evt.command_name = some nm ∧ 0 < nm.length)) ∧
      (evt.direction = Direction.EVALUATOR_TO_RUNNER → exec_of_event evt = none)) := by
  constructor
  · rw [drain_command_trace_eq]
  · intro evt
    obtain ⟨dir, cn, ps, rt, su⟩ := evt
    cases dir with
    | RUNNER_TO_EVALUATOR =>
        cases cn with
        | none => simp [exec_of_event]
        | some nm =>
            by_cases hlen : 0 < nm.length <;> simp [exec_of_event, hlen]
    | EVALUATOR_TO_RUNNER => simp [exec_of_event]

/-- Claim C7: the poll-and-drain loop always terminates: it executes at most
MAX_NUM_STEPS (5000) iterations, and exits earlier as soon as idle_cycles
reaches IDLE_LIMIT (150).  chain_ok states that idle_cycles counts consecutive
unproductive iterations (reset to 0 by any productive one) and that every
iteration before the last ran with idle_cycles below the limit; the final
conjunct states that any run shorter than MAX_NUM_STEPS ended exactly when
idle_cycles reached IDLE_LIMIT. -/
theorem claim_C7 (w : World) (a : Adapter) (cmds : List ExecutedCommand)
    (txts : List String) (tr : List IterLog)
    (h : poll_phase w a = Except.ok (cmds, txts, tr)) :
    tr.length ≤ MAX_NUM_STEPS ∧ chain_ok 0 tr = true ∧
      (tr.length < MAX_NUM_STEPS →
        ∃ e, tr.getLast? = some e ∧ e.idle_after = IDLE_LIMIT) := by
  unfold poll_phase at h
  obtain ⟨l1, -, l3, l4⟩ :=
    poll_loop_ok_spec _ MAX_NUM_STEPS 0 w.script w.trace_q0 w.out_q0 [] [] 0
      cmds txts tr (by norm_num [IDLE_LIMIT]) h
  exact ⟨l1, l3, l4⟩

/-- Witness for claim C7 at a concrete run: an initialized adapter polling a
permanently quiet runner; the loop runs exactly IDLE_LIMIT iterations. -/
theorem claim_C7_witness :
    poll_phase w0 adapter_live = Except.ok ([], [], quiet_trace) ∧
    (quiet_trace.length ≤ MAX_NUM_STEPS ∧ chain_ok 0 quiet_trace = true ∧
      (quiet_trace.length < MAX_NUM_STEPS →
        ∃ e, quiet_trace.getLast? = some e ∧ e.idle_after = IDLE_LIMIT)) :=
  ⟨poll_phase_w0_eval, claim_C7 w0 adapter_live [] [] quiet_trace poll_phase_w0_eval⟩

/-- Claim C3: for every exception raised inside the try-block of
generate_next_message (dispatch, polling/draining or conversion — and in fact
also initialization), the call does not raise: it returns an AssistantMessage
whose content is a human-readable error string containing the exception text
and whose tool_calls is None, together with the state as it stood at the
failure. -/
theorem claim_C3 (w : World) (a : Adapter) (m : InMsg) (s : Option BState)
    (e : String) (st : BState) (a1 : Adapter) (eff : Effects)
    (h : gnm_body w a m s = Except.error (e, st, a1, eff)) :
    generate_next_message w a m s =
      ({ role := "assistant", content := some ("I encountered an error: " ++ e),
         tool_calls := none, cost := 0 }, some st, a1, eff) := by
  simp [generate_next_message, error_message, h]

/-- Witness for claim C3: a concrete dispatch-phase exception on an
initialized adapter is converted into the error message. -/
theorem claim_C3_witness :
    gnm_body w_dispatch_fault adapter_live (InMsg.tool "x") none =
      Except.error ("boom",
        { message_history := [HistMsg.toolM "x"], awaiting_response := false,
          last_tool_calls := [] }, adapter_live, no_effects) ∧
    generate_next_message w_dispatch_fault adapter_live (InMsg.tool "x") none =
      ({ role := "assistant", content := some ("I encountered an error: " ++ "boom"),
         tool_calls := none, cost := 0 },
       some { message_history := [HistMsg.toolM "x"], awaiting_response := false,
              last_tool_calls := [] }, adapter_live, no_effects) :=
  ⟨rfl, claim_C3 _ _ _ _ _ _ _ _ rfl⟩

lemma calls_from_get? (l : List ExecutedCommand) (k i : Nat) (hi : i < l.length) :
    (calls_from k l).get? i = some (call_at (k + i) (l.get ⟨i, hi⟩)) := by
  have hlen : i < (calls_from k l).length := by rw [calls_from_length]; exact hi
  rw [List.get?_eq_get hlen, calls_from_get l k i hi]

/-- Claim C1: for every call to generate_next_message that returns via the
normal (non-exception) path, the returned AssistantMessage has exactly one of
content or tool_calls set, never both and never neither: if at least one
action record was collected during the drain, tool_calls holds the converted
calls and content is None (runner text collected in the same batch is
dropped); else if at least one runner utterance was collected, content is that
(last accumulated) text and tool_calls is None; else content equals the fixed
apology string and tool_calls is None. -/
theorem claim_C1 (w : World) (a : Adapter) (m : InMsg) (s : Option BState)
    (st1 : BState) (a1 : Adapter) (eff : Effects) (cmds : List ExecutedCommand)
    (txts : List String) (tr : List IterLog)
    (hd : dispatch w a m (state_setup s) = Except.ok (st1, a1, eff))
    (hp : poll_phase w a1 = Except.ok (cmds, txts, tr))
    (hcf : w.conv_fault = none) :
    (((generate_next_message w a m s).1.content = none ∧
        (generate_next_message w a m s).1.tool_calls ≠ none) ∨
      ((generate_next_message w a m s).1.content ≠ none ∧
        (generate_next_message w a m s).1.tool_calls = none)) ∧
    (cmds ≠ [] →
      (generate_next_message w a m s).1.tool_calls =
          some (convert_commands_to_tool_calls cmds) ∧
        (generate_next_message w a m s).1.content = none) ∧
    (cmds = [] → txts ≠ [] →
      ∃ t, txts.getLast? = some t ∧
        (generate_next_message w a m s).1.content = some t ∧
        (generate_next_message w a m s).1.tool_calls = none) ∧
    (cmds = [] → txts = [] →
      (generate_next_message w a m s).1.content = some APOLOGY ∧
      (generate_next_message w a m s).1.tool_calls = none) := by
  have hg := gnm_eq_of_ok w a m s st1 a1 eff cmds txts tr hd hp hcf
  have hne := poll_phase_texts_ne w a1 cmds txts tr hp
  by_cases hc : cmds = []
  · subst hc
    by_cases ht : txts = []
    · subst ht
      rw [hg]
      simp only [assemble_outbound_empty]
      exact ⟨Or.inr ⟨by simp, by trivial⟩, fun h => absurd rfl h,
        fun _ h => absurd rfl h, fun _ _ => ⟨by trivial, by trivial⟩⟩
    · obtain ⟨t, hlast, hmsg⟩ := assemble_outbound_texts txts st1 ht hne
      rw [hg]
      simp only [hmsg]
      exact ⟨Or.inr ⟨by simp, by trivial⟩, fun h => absurd rfl h,
        fun _ _ => ⟨t, hlast, by trivial, by trivial⟩, fun _ hh => absurd hh ht⟩
  · have hmsg := assemble_outbound_cmds cmds txts st1 hc
    rw [hg]
    simp only [hmsg]
    exact ⟨Or.inl ⟨by trivial, by simp⟩, fun _ => ⟨by trivial, by trivial⟩,
      fun h => absurd h hc, fun h => absurd h hc⟩

/-- Witness for claim C1 at a concrete run: initialized adapter, a tool-result
inbound message, permanently quiet runner; the fallback apology branch. -/
theorem claim_C1_witness :
    dispatch w0 adapter_live (InMsg.tool "x") (state_setup none) =
      Except.ok ({ message_history := [HistMsg.toolM "x"], awaiting_response := false,
                   last_tool_calls := [] }, adapter_live, no_effects) ∧
    poll_phase w0 adapter_live = Except.ok ([], [], quiet_trace) ∧
    w0.conv_fault = none ∧
    ((((generate_next_message w0 adapter_live (InMsg.tool "x") none).1.content = none ∧
        (generate_next_message w0 adapter_live (InMsg.tool "x") none).1.tool_calls ≠ none) ∨
      ((generate_next_message w0 adapter_live (InMsg.tool "x") none).1.content ≠ none ∧
        (generate_next_message w0 adapter_live (InMsg.tool "x") none).1.tool_calls = none)) ∧
    (([] : List ExecutedCommand) ≠ [] →
      (generate_next_message w0 adapter_live (InMsg.tool "x") none).1.tool_calls =
          some (convert_commands_to_tool_calls []) ∧
        (generate_next_message w0 adapter_live (InMsg.tool "x") none).1.content = none) ∧
    (([] : List ExecutedCommand) = [] → ([] : List String) ≠ [] →
      ∃ t, ([] : List String).getLast? = some t ∧
        (generate_next_message w0 adapter_live (InMsg.tool "x") none).1.content = some t ∧
        (generate_next_message w0 adapter_live (InMsg.tool "x") none).1.tool_calls = none) ∧
    (([] : List ExecutedCommand) = [] → ([] : List String) = [] →
      (generate_next_message w0 adapter_live (InMsg.tool "x") none).1.content = some APOLOGY ∧
      (generate_next_message w0 adapter_live (InMsg.tool "x") none).1.tool_calls = none)) :=
  ⟨rfl, poll_phase_w0_eval, rfl,
   claim_C1 w0 adapter_live (InMsg.tool "x") none
     { message_history := [HistMsg.toolM "x"], awaiting_response := false,
       last_tool_calls := [] }
     adapter_live no_effects [] [] quiet_trace rfl poll_phase_w0_eval rfl⟩

/-- Claim C5: for every non-empty batch of collected action records, the
emitted ActionCall sequence has the records' names in collection order, each
ActionCall's id is assigned by its position in the batch as call_0, call_1,
and so on, and each has requestor "assistant"; the calls are a pure function
of the current batch (call_at of the position), so ids are fresh per outbound
message rather than drawn from a global counter. -/
theorem claim_C5 (w : World) (a : Adapter) (m : InMsg) (s : Option BState)
    (st1 : BState) (a1 : Adapter) (eff : Effects) (cmds : List ExecutedCommand)
    (txts : List String) (tr : List IterLog)
    (hd : dispatch w a m (state_setup s) = Except.ok (st1, a1, eff))
    (hp : poll_phase w a1 = Except.ok (cmds, txts, tr))
    (hcf : w.conv_fault = none)
    (hc : cmds ≠ []) :
    ∃ tcs, (generate_next_message w a m s).1.tool_calls = some tcs ∧
      tcs = convert_commands_to_tool_calls cmds ∧
      tcs.length = cmds.length ∧
      tcs.map ToolCall.name = cmds.map ExecutedCommand.name ∧
      (∀ (i : Nat) (hi : i < cmds.length),
        tcs.get? i = some (call_at i (cmds.get ⟨i, hi⟩))) ∧
      (∀ (i : Nat) (c : ExecutedCommand),
        (call_at i c).id = "call_" ++ toString i ∧
        (call_at i c).requestor = "assistant" ∧ (call_at i c).name = c.name) := by
  have hg := gnm_eq_of_ok w a m s st1 a1 eff cmds txts tr hd hp hcf
  have hmsg := assemble_outbound_cmds cmds txts st1 hc
  refine ⟨convert_commands_to_tool_calls cmds, ?_, rfl, convert_length cmds, ?_, ?_, ?_⟩
  · rw [hg]
    simp only [hmsg]
  · rw [convert_eq_calls_from, calls_from_map_name]
  · intro i hi
    rw [convert_eq_calls_from]
    have := calls_from_get? cmds 0 i hi
    rwa [Nat.zero_add] at this
  · intro i c
    exact ⟨rfl, rfl, rfl⟩

/-- Witness for claim C5 at a concrete run: one RUNNER_TO_EVALUATOR record
named cancel_pending_order is drained; the outbound message carries one call
with id call_0 and requestor assistant. -/
theorem claim_C5_witness :
    dispatch w_one_cmd adapter_live (InMsg.tool "x") (state_setup none) =
      Except.ok ({ message_history := [HistMsg.toolM "x"], awaiting_response := false,
                   last_tool_calls := [] }, adapter_live, no_effects) ∧
    poll_phase w_one_cmd adapter_live = Except.ok ([cancel_cmd], [], busy_trace) ∧
    w_one_cmd.conv_fault = none ∧ [cancel_cmd] ≠ [] ∧
    (∃ tcs,
      (generate_next_message w_one_cmd adapter_live (InMsg.tool "x") none).1.tool_calls =
        some tcs ∧
      tcs = convert_commands_to_tool_calls [cancel_cmd] ∧
      tcs.length = [cancel_cmd].length ∧
      tcs.map ToolCall.name = [cancel_cmd].map ExecutedCommand.name ∧
      (∀ (i : Nat) (hi : i < [cancel_cmd].length),
        tcs.get? i = some (call_at i ([cancel_cmd].get ⟨i, hi⟩))) ∧
      (∀ (i : Nat) (c : ExecutedCommand),
        (call_at i c).id = "call_" ++ toString i ∧
        (call_at i c).requestor = "assistant" ∧ (call_at i c).name = c.name)) :=
  ⟨rfl, poll_phase_one_cmd_eval, rfl, by simp,
   claim_C5 w_one_cmd adapter_live (InMsg.tool "x") none
     { message_history := [HistMsg.toolM "x"], awaiting_response := false,
       last_tool_calls := [] }
     adapter_live no_effects [cancel_cmd] [] busy_trace rfl poll_phase_one_cmd_eval rfl
     (by simp)⟩

/-- Counterexample to claim C6 as stated: two output objects drained in the
same poll iteration are not joined with a line separator into one accumulated
utterance; each drained object stays a separate accumulated utterance and the
outbound content is the last one alone.  Concretely: one iteration drains two
output objects with texts "A" and "B"; the outbound content is "B", not the
same-iteration join of "A" and "B". -/
theorem claim_C6_counterexample :
    (generate_next_message w_two_texts adapter_live (InMsg.tool "result") none).1.content =
      some "B" ∧
    some "B" ≠ some (join_lines ["A", "B"]) := by
  refine ⟨?_, by decide⟩
  rfl

/-- Claim C6 amended: when no action records but at least one runner utterance
were collected, the outbound content equals the last accumulated utterance
across the whole poll loop (most-recent-wins), where an accumulated utterance
is the line-separator join of the texts extracted from one drained output
object — texts within a single drained object are joined, while distinct
objects, even when drained in the same poll iteration, remain separate
utterances. -/
theorem claim_C6_amended_thm (w : World) (a : Adapter) (m : InMsg) (s : Option BState)
    (st1 : BState) (a1 : Adapter) (eff : Effects)
    (txts : List String) (tr : List IterLog)
    (hd : dispatch w a m (state_setup s) = Except.ok (st1, a1, eff))
    (hp : poll_phase w a1 = Except.ok ([], txts, tr))
    (hcf : w.conv_fault = none)
    (ht : txts ≠ []) :
    (∃ t, txts.getLast? = some t ∧
      (generate_next_message w a m s).1.content = some t ∧
      (generate_next_message w a m s).1.tool_calls = none) ∧
    (∀ (n : Nat) (q : List CommandOutput),
      (drain_agent_outputs n q).1 = (q.take n).filterMap out_text_of) ∧
    (∀ o : CommandOutput,
      extract_texts o ≠ [] → out_text_of o = some (join_lines (extract_texts o))) := by
  have hg := gnm_eq_of_ok w a m s st1 a1 eff [] txts tr hd hp hcf
  have hne := poll_phase_texts_ne w a1 [] txts tr hp
  obtain ⟨t, hlast, hmsg⟩ := assemble_outbound_texts txts st1 ht hne
  refine ⟨⟨t, hlast, ?_, ?_⟩, ?_, ?_⟩
  · rw [hg]
    simp [hmsg]
  · rw [hg]
    simp [hmsg]
  · intro n q
    rw [drain_agent_outputs_eq]
  · intro o hne2
    unfold out_text_of
    simp [List.isEmpty_iff, hne2]

/-- Witness for the amended claim C6 at the concrete two-object run: the
accumulated utterances are "A" and "B" and the outbound content is "B". -/
theorem claim_C6_amended_witness :
    dispatch w_two_texts adapter_live (InMsg.tool "result") (state_setup none) =
      Except.ok ({ message_history := [HistMsg.toolM "result"], awaiting_response := false,
                   last_tool_calls := [] }, adapter_live, no_effects) ∧
    poll_phase w_two_texts adapter_live = Except.ok ([], ["A", "B"], busy_trace) ∧
    w_two_texts.conv_fault = none ∧ (["A", "B"] : List String) ≠ [] ∧
    ((∃ t, (["A", "B"] : List String).getLast? = some t ∧
      (generate_next_message w_two_texts adapter_live (InMsg.tool "result") none).1.content =
        some t ∧
      (generate_next_message w_two_texts adapter_live (InMsg.tool "result") none).1.tool_calls =
        none) ∧
    (∀ (n : Nat) (q : List CommandOutput),
      (drain_agent_outputs n q).1 = (q.take n).filterMap out_text_of) ∧
    (∀ o : CommandOutput,
      extract_texts o ≠ [] → out_text_of o = some (join_lines (extract_texts o)))) :=
  ⟨rfl, poll_phase_two_texts_eval, rfl, by simp,
   claim_C6_amended_thm w_two_texts adapter_live (InMsg.tool "result") none
     { message_history := [HistMsg.toolM "result"], awaiting_response := false,
       last_tool_calls := [] }
     adapter_live no_effects ["A", "B"] busy_trace rfl poll_phase_two_texts_eval rfl
     (by simp)⟩

/-- Counterexample to claim C2 as stated: when session initialization fails on
the first UserMessage of an uninitialized adapter, the exception does not
propagate uncaught to the caller: the try-block raises (gnm_body is an error),
but the top-level handler of generate_next_message converts it into an
outbound error AssistantMessage, so the call returns normally. -/
theorem claim_C2_counterexample :
    gnm_body w_init_fail adapter_fresh (InMsg.user "I want to cancel order #W123") none =
      Except.error ("missing session assets",
        { message_history := [], awaiting_response := false, last_tool_calls := [] },
        { fw_loaded := true, chat_session := none, is_init := false },
        { init_calls := 1, startup_commands := [], pushed := [] }) ∧
    generate_next_message w_init_fail adapter_fresh
        (InMsg.user "I want to cancel order #W123") none =
      ({ role := "assistant",
         content := some ("I encountered an error: " ++ "missing session assets"),
         tool_calls := none, cost := 0 },
       some { message_history := [], awaiting_response := false, last_tool_calls := [] },
       { fw_loaded := true, chat_session := none, is_init := false },
       { init_calls := 1, startup_commands := [], pushed := [] }) :=
  ⟨rfl, rfl⟩

/-- Claim C2 amended: if session initialization fails while
generate_next_message is handling the first UserMessage of an uninitialized
adapter, the exception propagates out of the initialization helper (which
re-raises after logging) but is then caught by the top-level handler of
generate_next_message like any other exception and converted into an outbound
error AssistantMessage carrying the exception text; it does not reach the
caller. -/
theorem claim_C2_amended_thm (w : World) (a : Adapter) (c : String) (s : Option BState)
    (e : String) (ha : a.is_init = false) (he : init_err w.init_outcome = some e)
    (hc : c ≠ "") :
    (∃ st1 a1 eff, gnm_body w a (InMsg.user c) s = Except.error (e, st1, a1, eff)) ∧
    (generate_next_message w a (InMsg.user c) s).1 =
      { role := "assistant", content := some ("I encountered an error: " ++ e),
        tool_calls := none, cost := 0 } := by
  have hmain : ∃ st1 a1 eff,
      gnm_body w a (InMsg.user c) s = Except.error (e, st1, a1, eff) := by
    cases ho : w.init_outcome with
    | success => rw [ho] at he; simp [init_err] at he
    | fail_before_session e2 =>
        rw [ho] at he
        simp only [init_err, Option.some.injEq] at he
        subst he
        exact ⟨state_setup s, { a with fw_loaded := true },
          { init_calls := 1, startup_commands := [], pushed := [] },
          by simp [gnm_body, dispatch, init_fw, ha, ho]⟩
    | fail_at_session e2 =>
        rw [ho] at he
        simp only [init_err, Option.some.injEq] at he
        subst he
        exact ⟨state_setup s, { a with fw_loaded := true },
          { init_calls := 1, startup_commands := [], pushed := [] },
          by simp [gnm_body, dispatch, init_fw, ha, ho]⟩
    | fail_at_start e2 =>
        rw [ho] at he
        simp only [init_err, Option.some.injEq] at he
        subst he
        exact ⟨state_setup s,
          { a with fw_loaded := true, chat_session := some { run_as_agent := true } },
          { init_calls := 1, startup_commands := [c], pushed := [] },
          by simp [gnm_body, dispatch, init_fw, ha, ho, hc]⟩
  obtain ⟨st1, a1, eff, hb⟩ := hmain
  exact ⟨⟨st1, a1, eff, hb⟩, by simp [generate_next_message, hb, error_message]⟩

/-- Witness for the amended claim C2 at the concrete failing-initialization
run. -/
theorem claim_C2_amended_witness :
    adapter_fresh.is_init = false ∧
    init_err w_init_fail.init_outcome = some "missing session assets" ∧
    ("hi" : String) ≠ "" ∧
    ((∃ st1 a1 eff, gnm_body w_init_fail adapter_fresh (InMsg.user "hi") none =
        Except.error ("missing session assets", st1, a1, eff)) ∧
     (generate_next_message w_init_fail adapter_fresh (InMsg.user "hi") none).1 =
       { role := "assistant",
         content := some ("I encountered an error: " ++ "missing session assets"),
         tool_calls := none, cost := 0 }) :=
  ⟨rfl, rfl, by decide,
   claim_C2_amended_thm w_init_fail adapter_fresh "hi" none "missing session assets"
     rfl rfl (by decide)⟩

/-- Claim C9: for a fresh (uninitialized) adapter, the first UserMessage
triggers exactly one session-initialization call, with that message's text
passed as the startup trigger, and a successful initialization leaves the
adapter marked initialized; a UserMessage arriving when the adapter is already
initialized (with a live session) is forwarded to the input sink, performs no
initialization call, and leaves the adapter attributes unchanged — so
initialization is never repeated in the same adapter lifetime before a reset. -/
theorem claim_C9 (w : World) (a : Adapter) (c : String) (s : Option BState)
    (ha : a.is_init = false) (hw : w.init_outcome = InitOutcome.success) (hc : c ≠ "") :
    ((generate_next_message w a (InMsg.user c) s).2.2.2.init_calls = 1 ∧
     (generate_next_message w a (InMsg.user c) s).2.2.2.startup_commands = [c] ∧
     (generate_next_message w a (InMsg.user c) s).2.2.1.is_init = true) ∧
    (∀ (w2 : World) (a2 : Adapter) (c2 : String) (s2 : Option BState),
      a2.is_init = true → a2.chat_session.isSome = true →
      (generate_next_message w2 a2 (InMsg.user c2) s2).2.2.2.init_calls = 0 ∧
      (generate_next_message w2 a2 (InMsg.user c2) s2).2.2.2.pushed = [c2] ∧
      (generate_next_message w2 a2 (InMsg.user c2) s2).2.2.1 = a2) := by
  constructor
  · have hi : init_fw w a (some c) =
        (none, started a,
         { init_calls := 1, startup_commands := [c], pushed := [] }) := by
      simp [init_fw, started, ha, hw, hc]
    cases hdf : w.dispatch_fault with
    | some e =>
        have hd : dispatch w a (InMsg.user c) (state_setup s) =
            Except.error (e,
              { state_setup s with message_history :=
                  (state_setup s).message_history ++ [HistMsg.userM c] },
              started a,
              { init_calls := 1, startup_commands := [c], pushed := [] }) := by
          simp [dispatch, ha, hi, hdf]
        obtain ⟨h1, h2⟩ := gnm_adapter_effects_of_dispatch_err w a (InMsg.user c) s
          _ _ _ _ hd
        rw [h1, h2]
        exact ⟨rfl, rfl, rfl⟩
    | none =>
        have hd : dispatch w a (InMsg.user c) (state_setup s) =
            Except.ok
              ({ state_setup s with message_history :=
                  (state_setup s).message_history ++ [HistMsg.userM c] },
              started a,
              { init_calls := 1, startup_commands := [c], pushed := [] }) := by
          simp [dispatch, ha, hi, hdf]
        obtain ⟨h1, h2⟩ := gnm_adapter_effects_of_dispatch_ok w a (InMsg.user c) s
          _ _ _ hd
        rw [h1, h2]
        exact ⟨rfl, rfl, rfl⟩
  · intro w2 a2 c2 s2 h1 h2
    cases hdf : w2.dispatch_fault with
    | some e =>
        have hd : dispatch w2 a2 (InMsg.user c2) (state_setup s2) =
            Except.error (e,
              { state_setup s2 with message_history :=
                  (state_setup s2).message_history ++ [HistMsg.userM c2] },
              a2, { init_calls := 0, startup_commands := [], pushed := [c2] }) := by
          simp [dispatch, h1, h2, hdf]
        obtain ⟨hh1, hh2⟩ := gnm_adapter_effects_of_dispatch_err w2 a2 (InMsg.user c2) s2
          _ _ _ _ hd
        rw [hh1, hh2]
        exact ⟨rfl, rfl, rfl⟩
    | none =>
        have hd : dispatch w2 a2 (InMsg.user c2) (state_setup s2) =
            Except.ok
              ({ state_setup s2 with message_history :=
                  (state_setup s2).message_history ++ [HistMsg.userM c2] },
              a2, { init_calls := 0, startup_commands := [], pushed := [c2] }) := by
          simp [dispatch, h1, h2, hdf]
        obtain ⟨hh1, hh2⟩ := gnm_adapter_effects_of_dispatch_ok w2 a2 (InMsg.user c2) s2
          _ _ _ hd
        rw [hh1, hh2]
        exact ⟨rfl, rfl, rfl⟩

/-- Witness for claim C9 at a concrete first-turn run on a fresh adapter. -/
theorem claim_C9_witness :
    adapter_fresh.is_init = false ∧ w0.init_outcome = InitOutcome.success ∧
    ("hi" : String) ≠ "" ∧
    (((generate_next_message w0 adapter_fresh (InMsg.user "hi") none).2.2.2.init_calls = 1 ∧
      (generate_next_message w0 adapter_fresh (InMsg.user "hi") none).2.2.2.startup_commands =
        ["hi"] ∧
      (generate_next_message w0 adapter_fresh (InMsg.user "hi") none).2.2.1.is_init = true) ∧
     (∀ (w2 : World) (a2 : Adapter) (c2 : String) (s2 : Option BState),
       a2.is_init = true → a2.chat_session.isSome = true →
       (generate_next_message w2 a2 (InMsg.user c2) s2).2.2.2.init_calls = 0 ∧
       (generate_next_message w2 a2 (InMsg.user c2) s2).2.2.2.pushed = [c2] ∧
       (generate_next_message w2 a2 (InMsg.user c2) s2).2.2.1 = a2)) :=
  ⟨rfl, rfl, by decide,
   claim_C9 w0 adapter_fresh "hi" none rfl rfl (by decide)⟩

/-- Counterexample to claim C8 as stated: when the suppressed internal
stack-clear call raises during reset of an initialized adapter, the session
handle reference is NOT cleared — the suppressed exception skips the
chat_session assignment that sits after the clear call inside the suppress
block — although is_initialized still becomes false and no exception
escapes. -/
theorem claim_C8_counterexample :
    (reset w_clear_raises adapter_live).chat_session = some { run_as_agent := true } ∧
    (reset w_clear_raises adapter_live).chat_session ≠ none ∧
    (reset w_clear_raises adapter_live).is_init = false :=
  ⟨rfl, by decide, rfl⟩

/-- Claim C8 amended: reset and stop are total (the only fallible internal
call is wrapped in suppress, so no exception escapes), calling them twice in a
row or before any initialization is a no-op beyond clearing the initialized
flag, they always leave is_initialized false, and they never touch the
caller-owned BridgeState (stop receives and ignores it; reset never sees it);
the session handle reference is cleared whenever the suppressed stack-clear
call does not raise — if it raises, the stale handle reference is retained
while is_initialized still becomes false. -/
theorem claim_C8_amended_thm (w w2 : World) (a : Adapter) :
    (reset w a).is_init = false ∧
    reset w2 (reset w a) = reset w a ∧
    (a.is_init = false → reset w a = { a with is_init := false }) ∧
    (a.is_init = true → w.clear_stack_raises = false →
      (reset w a).chat_session = none ∨ a.chat_session = none) ∧
    (∀ (m : Option InMsg) (s : Option BState), stop w a m s = reset w a) ∧
    (stop w a none none).is_init = false := by
  have hreset_init : ∀ (wx : World) (ax : Adapter), (reset wx ax).is_init = false := by
    intro wx ax
    unfold reset
    by_cases hg : ax.is_init = true ∧ ax.chat_session.isSome = true
    · rw [if_pos hg]
    · rw [if_neg hg]
  have hnoop : ∀ (wx : World) (r : Adapter), r.is_init = false → reset wx r = r := by
    intro wx r hr
    unfold reset
    rw [if_neg (by simp [hr])]
    obtain ⟨fw, cs, ii⟩ := r
    simp only [] at hr
    subst hr
    rfl
  refine ⟨hreset_init w a, hnoop w2 (reset w a) (hreset_init w a), ?_, ?_, ?_, ?_⟩
  · intro ha
    unfold reset
    rw [if_neg (by simp [ha])]
  · intro hi hcl
    cases hcs : a.chat_session with
    | none => exact Or.inr rfl
    | some cse =>
        left
        unfold reset
        rw [if_pos ⟨hi, by simp [hcs]⟩, if_neg (by simp [hcl])]
  · intro m s
    rfl
  · exact hreset_init w a

/-- Witness for the amended claim C8 at concrete adapters and worlds,
discharging each hypothesis of the conditional conjuncts. -/
theorem claim_C8_amended_witness :
    ((reset w_clear_raises adapter_live).is_init = false ∧
      reset w0 (reset w_clear_raises adapter_live) = reset w_clear_raises adapter_live) ∧
    reset w0 adapter_fresh = { adapter_fresh with is_init := false } ∧
    ((reset w0 adapter_live).chat_session = none ∨ adapter_live.chat_session = none) ∧
    stop w0 adapter_live none none = reset w0 adapter_live :=
  ⟨⟨(claim_C8_amended_thm w_clear_raises w0 adapter_live).1,
    (claim_C8_amended_thm w_clear_raises w0 adapter_live).2.1⟩,
   (claim_C8_amended_thm w0 w0 adapter_fresh).2.2.1 rfl,
   (claim_C8_amended_thm w0 w0 adapter_live).2.2.2.1 rfl rfl,
   (claim_C8_amended_thm w0 w0 adapter_live).2.2.2.2.1 none none⟩

lemma inbound_msgs_no_assistant (m : InMsg) :
    (inbound_msgs m).all (fun x => !is_assistant x) = true := by
  cases m with
  | user c => simp [inbound_msgs, is_assistant]
  | tool c => simp [inbound_msgs, is_assistant]
  | multiTool cs =>
      simp only [inbound_msgs, List.all_eq_true, List.mem_map]
      rintro x ⟨c, -, hc⟩
      subst hc
      simp [is_assistant]

lemma dispatch_cases (w : World) (a : Adapter) (m : InMsg) (st : BState) :
    (∃ r, dispatch w a m st = Except.error r ∧
      (r.2.1 = st ∨
        r.2.1 = { st with message_history := st.message_history ++ inbound_msgs m })) ∨
    (∃ r, dispatch w a m st = Except.ok r ∧
      r.1 = { st with message_history := st.message_history ++ inbound_msgs m }) := by
  cases m with
  | user c =>
      by_cases hi : a.is_init = true
      · cases hdf : w.dispatch_fault with
        | some e =>
            left
            refine ⟨(e,
              { st with message_history := st.message_history ++ [HistMsg.userM c] }, a,
              if a.chat_session.isSome then
                { init_calls := 0, startup_commands := [], pushed := [c] }
              else no_effects), ?_, Or.inr rfl⟩
            simp [dispatch, hi, hdf]
        | none =>
            right
            refine ⟨(
              { st with message_history := st.message_history ++ [HistMsg.userM c] }, a,
              if a.chat_session.isSome then
                { init_calls := 0, startup_commands := [], pushed := [c] }
              else no_effects), ?_, rfl⟩
            simp [dispatch, hi, hdf]
      · cases hif : init_fw w a (some c) with
        | mk oe rest =>
            obtain ⟨a2, eff2⟩ := rest
            cases oe with
            | some e =>
                left
                exact ⟨(e, st, a2, eff2), by simp [dispatch, hi, hif], Or.inl rfl⟩
            | none =>
                cases hdf : w.dispatch_fault with
                | some e =>
                    left
                    refine ⟨(e,
                      { st with message_history := st.message_history ++ [HistMsg.userM c] },
                      a2, eff2), ?_, Or.inr rfl⟩
                    simp [dispatch, hi, hif, hdf]
                | none =>
                    right
                    refine ⟨(
                      { st with message_history := st.message_history ++ [HistMsg.userM c] },
                      a2, eff2), ?_, rfl⟩
                    simp [dispatch, hi, hif, hdf]
  | tool c =>
      cases hdf : w.dispatch_fault with
      | some e =>
          left
          refine ⟨(e,
            { st with message_history := st.message_history ++ [HistMsg.toolM c] }, a,
            no_effects), ?_, Or.inr rfl⟩
          simp [dispatch, hdf]
      | none =>
          right
          refine ⟨(
            { st with message_history := st.message_history ++ [HistMsg.toolM c] }, a,
            no_effects), ?_, rfl⟩
          simp [dispatch, hdf]
  | multiTool cs =>
      cases hdf : w.dispatch_fault with
      | some e =>
          left
          refine ⟨(e,
            { st with message_history := st.message_history ++ cs.map HistMsg.toolM }, a,
            no_effects), ?_, Or.inr rfl⟩
          simp [dispatch, hdf]
      | none =>
          right
          refine ⟨(
            { st with message_history := st.message_history ++ cs.map HistMsg.toolM }, a,
            no_effects), ?_, rfl⟩
          simp [dispatch, hdf]

lemma dispatch_ok_state (w : World) (a : Adapter) (m : InMsg) (st : BState)
    (st1 : BState) (a1 : Adapter) (eff : Effects)
    (h : dispatch w a m st = Except.ok (st1, a1, eff)) :
    ∃ tail, st1.message_history = st.message_history ++ tail ∧
      tail.all (fun x => !is_assistant x) = true := by
  refine ⟨inbound_msgs m, ?_, inbound_msgs_no_assistant m⟩
  rcases dispatch_cases w a m st with ⟨r, hr, -⟩ | ⟨r, hr, hst⟩
  · rw [h] at hr
    exact absurd hr (by simp)
  · rw [h] at hr
    have h3 : (st1, a1, eff) = r := Except.ok.inj hr
    have h4 : st1 = r.1 := congrArg Prod.fst h3
    rw [h4, hst]

lemma dispatch_error_state (w : World) (a : Adapter) (m : InMsg) (st : BState)
    (e : String) (st2 : BState) (a1 : Adapter) (eff : Effects)
    (h : dispatch w a m st = Except.error (e, st2, a1, eff)) :
    ∃ tail, st2.message_history = st.message_history ++ tail ∧
      tail.all (fun x => !is_assistant x) = true := by
  rcases dispatch_cases w a m st with ⟨r, hr, hst⟩ | ⟨r, hr, -⟩
  · rw [h] at hr
    have h3 : (e, st2, a1, eff) = r := Except.error.inj hr
    have h4 : st2 = r.2.1 := congrArg (fun p => p.2.1) h3
    rcases hst with hst | hst
    · exact ⟨[], by rw [h4, hst]; simp, by simp⟩
    · exact ⟨inbound_msgs m, by rw [h4, hst], inbound_msgs_no_assistant m⟩
  · rw [h] at hr
    exact absurd hr (by simp)

lemma gnm_body_error_inbound_only (w : World) (a : Adapter) (m : InMsg)
    (s : Option BState) (e : String) (st : BState) (a1 : Adapter) (eff : Effects)
    (h : gnm_body w a m s = Except.error (e, st, a1, eff)) :
    ∃ tail, st.message_history = (state_setup s).message_history ++ tail ∧
      tail.all (fun x => !is_assistant x) = true := by
  unfold gnm_body at h
  simp only [] at h
  cases hd : dispatch w a m (state_setup s) with
  | error r =>
      rw [hd] at h
      simp only [Except.error.injEq] at h
      obtain ⟨e2, st2, a2, eff2⟩ := r
      simp only [Prod.mk.injEq] at h
      obtain ⟨-, h1, -, -⟩ := h
      subst h1
      exact dispatch_error_state w a m (state_setup s) e2 st2 a2 eff2 hd
  | ok r =>
      rw [hd] at h
      obtain ⟨st1, a2, eff2⟩ := r
      simp only [] at h
      cases hp : poll_phase w a2 with
      | error e2 =>
          rw [hp] at h
          simp only [Except.error.injEq, Prod.mk.injEq] at h
          obtain ⟨-, h1, -, -⟩ := h
          subst h1
          exact dispatch_ok_state w a m (state_setup s) st1 a2 eff2 hd
      | ok pr =>
          rw [hp] at h
          obtain ⟨cmds, txts, tr⟩ := pr
          simp only [] at h
          cases hcf : w.conv_fault with
          | some e2 =>
              rw [hcf] at h
              simp only [Except.error.injEq, Prod.mk.injEq] at h
              obtain ⟨-, h1, -, -⟩ := h
              subst h1
              exact dispatch_ok_state w a m (state_setup s) st1 a2 eff2 hd
          | none =>
              rw [hcf] at h
              simp at h


/-- Claim C10: on the caught-exception path of generate_next_message, the
returned error AssistantMessage is not appended to the state's
message_history, and the state is returned exactly as it was at the moment of
failure: the returned state is the one the failing try-block carried, and
every history entry added before the failure is an inbound user/tool message,
never an assistant message.  (No failure point precedes the state-setup block,
which is the first, non-raising statement of the try-block, so the
before-setup case of the claim is vacuous and the returned state on a failure
is always the initialized dict.) -/
theorem claim_C10 (w : World) (a : Adapter) (m : InMsg) (s : Option BState)
    (e : String) (st : BState) (a1 : Adapter) (eff : Effects)
    (h : gnm_body w a m s = Except.error (e, st, a1, eff)) :
    (generate_next_message w a m s).2.1 = some st ∧
    (generate_next_message w a m s).1 = error_message e ∧
    (∃ tail, st.message_history = (state_setup s).message_history ++ tail ∧
      tail.all (fun x => !is_assistant x) = true) := by
  refine ⟨?_, ?_, gnm_body_error_inbound_only w a m s e st a1 eff h⟩
  · simp [generate_next_message, h]
  · simp [generate_next_message, h]

/-- Witness for claim C10 at a concrete failing run: a dispatch-phase
exception after a user message was forwarded. -/
theorem claim_C10_witness :
    gnm_body w_dispatch_fault adapter_live (InMsg.user "hello") none =
      Except.error ("boom",
        { message_history := [HistMsg.userM "hello"], awaiting_response := false,
          last_tool_calls := [] }, adapter_live,
        { init_calls := 0, startup_commands := [], pushed := ["hello"] }) ∧
    ((generate_next_message w_dispatch_fault adapter_live (InMsg.user "hello") none).2.1 =
      some { message_history := [HistMsg.userM "hello"], awaiting_response := false,
             last_tool_calls := [] } ∧
     (generate_next_message w_dispatch_fault adapter_live (InMsg.user "hello") none).1 =
       error_message "boom" ∧
     (∃ tail,
       ({ message_history := [HistMsg.userM "hello"], awaiting_response := false,
          last_tool_calls := [] } : BState).message_history =
         (state_setup none).message_history ++ tail ∧
       tail.all (fun x => !is_assistant x) = true)) :=
  ⟨rfl, claim_C10 w_dispatch_fault adapter_live (InMsg.user "hello") none "boom"
    { message_history := [HistMsg.userM "hello"], awaiting_response := false,
      last_tool_calls := [] } adapter_live
    { init_calls := 0, startup_commands := [], pushed := ["hello"] } rfl⟩

end Tau2FW
